import Mathlib

/-!
Shallow embedding of the pyalgotrade binance connector
(`pyalgotrade/binance/livebroker.py`, `pyalgotrade/binance/wsclient.py`,
`pyalgotrade/binance/netclients.py`).

Conventions of the embedding:
* Python floats are modelled as exact rationals (`ℚ`); `datetime` values are
  modelled as rational timestamps.
* The venue gateway (`BinanceRest` HTTP client) is an external collaborator;
  its responses are passed in as a `Gateway` record of `Except`-valued
  results, and every call the broker makes to it is logged in a
  `GatewayCall` trace so "no gateway call is made" is provable.
* Python exceptions are modelled as an `error : Option String` field carried
  in each operation's result record (an `Except`-style early return).
* Event emission (`notifyOrderEvent`) is modelled by appending an
  `EmittedEvent` to a trace; each emitted event records a snapshot of the
  order and of its registration status at the moment of emission, so
  ordering claims ("the switch completes before the event is emitted")
  become statements about those snapshots.
* The base `broker.Order` class of pyalgotrade is not part of the four
  source files; its behaviour is modelled from the spec (see the doc
  comments starting with `Modelled from the spec:`).
-/

namespace Binance

/-- Order side, `broker.Order.Action` after BUY_TO_COVER/SELL_SHORT
normalization: only BUY and SELL survive. -/
inductive Side where
  | Buy
  | Sell
deriving DecidableEq, Repr

/-- Embeds `broker.Order.Type`. `submitOrder` only accepts LIMIT and MARKET; the
other two exist so its `else: raise` branch is representable. -/
inductive OrderType where
  | Limit
  | Market
  | Stop
  | StopLimit
deriving DecidableEq, Repr

/-- Modelled from the spec: order state machine
`Initial → Submitted → Accepted → (PartiallyFilled)* → {Filled | Canceled}`
(pyalgotrade `broker.Order.State`; venue rejections surface as Canceled). -/
inductive OrderState where
  | Initial
  | Submitted
  | Accepted
  | PartiallyFilled
  | Filled
  | Canceled
deriving DecidableEq, Repr

/-- Embeds `broker.OrderEvent.Type` values used by the connector. -/
inductive EventType where
  | SUBMITTED
  | ACCEPTED
  | PARTIALLY_FILLED
  | FILLED
  | CANCELED
deriving DecidableEq, Repr

/-- Embeds `broker.OrderExecutionInfo(price, quantity, commission, dateTime)`.
`price` is optional because `OrderStateChange.oei` can build one with a
`None` price when the wire message carries no price field. -/
structure OrderExecutionInfo where
  price : Option ℚ
  size : ℚ
  fee : ℚ
  time : ℚ
deriving DecidableEq, Repr

/-- Modelled from the spec: the pyalgotrade `broker.Order` object.
{id (assigned on submission, absent before), side, type, price (Limit only),
quantity, filled quantity, state, execution history, plus the
allOrNone/goodTillCanceled flags `submitOrder` overrides. -/
structure Order where
  id : Option ℕ
  otype : OrderType
  side : Side
  quantity : ℚ
  limitPrice : ℚ
  state : OrderState
  filled : ℚ
  execInfo : List OrderExecutionInfo
  allOrNone : Bool
  goodTillCanceled : Bool
  submittedAt : Option ℚ
deriving DecidableEq, Repr

namespace Order

/-- Embeds `Order.isInitial()`. -/
def isInitial (o : Order) : Bool := o.state == .Initial

/-- Modelled from the spec: an active order is one in a non-terminal state
(glossary: "an order in any non-terminal state, present in the registry"). -/
def isActive (o : Order) : Bool :=
  o.state == .Initial || o.state == .Submitted || o.state == .Accepted ||
    o.state == .PartiallyFilled

/-- Embeds `Order.isFilled()`. -/
def isFilled (o : Order) : Bool := o.state == .Filled

/-- Embeds `Order.isBuy()`. -/
def isBuy (o : Order) : Bool := o.side == .Buy

/-- Modelled from the spec: `switchState` moves the order to the given
state. (The source additionally validates the transition against the state
machine; no claim below depends on that validation, and every switch the
connector performs is a legal edge of the spec's machine.) -/
def switchState (o : Order) (s : OrderState) : Order := { o with state := s }

/-- Modelled from the spec: appending an Execution Info record. "filled
quantity ... equals the sum of execution sizes"; after the append the order
is Filled when the filled quantity reaches the order quantity, else
PartiallyFilled (spec §4.3 / §8 scenario B). The source raises on a fill
larger than the remaining quantity; theorems below only use valid fills. -/
def addExecutionInfo (o : Order) (e : OrderExecutionInfo) : Order :=
  let newFilled := o.filled + e.size
  { o with
      filled := newFilled
      execInfo := o.execInfo ++ [e]
      state := if newFilled == o.quantity then .Filled else .PartiallyFilled }

/-- Embeds `Order.setSubmitted(orderId, dateTime)`: assigns the venue id and the
submission time. -/
def setSubmitted (o : Order) (gid : ℕ) (now : ℚ) : Order :=
  { o with id := some gid, submittedAt := some now }

end Order

/-! ### The active-order map (`self.__activeOrders`, a Python dict) -/

/-- The active-order map, a dict from venue order id to the (mutable) order
object, modelled as an association list. -/
abbrev OrderMap := List (ℕ × Order)

/-- Embeds `self.__activeOrders.get(oid)` / `self.__activeOrders[oid]`. -/
def lookupOrder (m : OrderMap) (k : ℕ) : Option Order :=
  match m.find? (fun p => p.1 == k) with
  | some p => some p.2
  | none => none

/-- In-place mutation of the order object referenced by the dict entry for
`k` (Python mutates the object; the dict keeps pointing at it). -/
def updateOrder (m : OrderMap) (k : ℕ) (o : Order) : OrderMap :=
  m.map (fun p => if p.1 == k then (k, o) else p)

/-- Embeds `del self.__activeOrders[k]`. -/
def eraseOrder (m : OrderMap) (k : ℕ) : OrderMap :=
  m.filter (fun p => p.1 != k)

theorem lookupOrder_nil (k : ℕ) : lookupOrder [] k = none := rfl

theorem lookupOrder_cons (p : ℕ × Order) (m : OrderMap) (k : ℕ) :
    lookupOrder (p :: m) k =
      if p.1 = k then some p.2 else lookupOrder m k := by
  by_cases h : p.1 = k
  · simp [lookupOrder, List.find?, h]
  · have hb : (p.1 == k) = false := by simpa using h
    simp [lookupOrder, List.find?, hb, h]

theorem lookupOrder_append_right (m : OrderMap) (x : ℕ × Order) (k : ℕ)
    (h : lookupOrder m k = none) :
    lookupOrder (m ++ [x]) k = lookupOrder [x] k := by
  induction m with
  | nil => rfl
  | cons p t ih =>
    rw [List.cons_append, lookupOrder_cons, lookupOrder_cons] at *
    by_cases hp : p.1 = k
    · simp [hp] at h
    · simp only [hp, if_false] at h ⊢
      exact ih h

theorem lookupOrder_update_self (m : OrderMap) (k : ℕ) (o : Order)
    (h : (lookupOrder m k).isSome) :
    lookupOrder (updateOrder m k o) k = some o := by
  induction m with
  | nil => simp [lookupOrder] at h
  | cons p t ih =>
    rw [lookupOrder_cons] at h
    by_cases hp : p.1 = k
    · simp [updateOrder, hp, lookupOrder_cons]
    · simp only [hp, if_false] at h
      simpa [updateOrder, hp, lookupOrder_cons] using ih h

theorem lookupOrder_erase_self (m : OrderMap) (k : ℕ) :
    lookupOrder (eraseOrder m k) k = none := by
  induction m with
  | nil => rfl
  | cons p t ih =>
    by_cases hp : p.1 = k
    · simpa [eraseOrder, hp] using ih
    · simpa [eraseOrder, hp, lookupOrder_cons] using ih

theorem lookupOrder_isSome_of_mem_keys (m : OrderMap) (k : ℕ)
    (h : k ∈ m.map Prod.fst) : (lookupOrder m k).isSome := by
  induction m with
  | nil => simp at h
  | cons p t ih =>
    rw [lookupOrder_cons]
    by_cases hp : p.1 = k
    · simp [hp]
    · simp only [List.map_cons, List.mem_cons] at h
      rcases h with h | h
      · exact absurd h.symm hp
      · simpa [hp] using ih h

/-! ### Gateway collaborator, broker state and traces -/

/-- One call the broker makes to the venue gateway (the HTTP client). -/
inductive GatewayCall where
  | balances
  | openOrders
  | limitorder (side : Side) (price size : ℚ)
  | marketorder (side : Side) (size : ℚ)
  | cancelOrder (oid : ℕ)
  | startMonitor
deriving DecidableEq, Repr

/-- The venue gateway's responses (spec §6, an external collaborator): each
field is the outcome the gateway would produce if the broker called it. -/
structure Gateway where
  balancesResp : Except String (ℚ × ℚ)
  openOrdersResp : Except String (List Order)
  limitorderResp : Except String ℕ
  marketorderResp : Except String ℕ
  cancelResp : Except String Unit
  monitorResp : Except String Unit

/-- The `LiveBroker` fields the claims touch: the stop flag, cached cash
(cc2) and asset position (cc1), and the active-order map. -/
structure BrokerState where
  stop : Bool
  cash : ℚ
  shares : ℚ
  activeOrders : OrderMap
deriving DecidableEq, Repr

/-- Embeds `LiveBroker.eof()`. -/
def eofB (b : BrokerState) : Bool := b.stop

/-- A `notifyOrderEvent` call: the event type and execution info passed to
`broker.OrderEvent`, plus snapshots of the order object and of its
registration status taken at the moment of emission. -/
structure EmittedEvent where
  eventType : EventType
  oei : Option OrderExecutionInfo
  orderAtEmit : Order
  registeredAtEmit : Bool
deriving DecidableEq, Repr

/-- Embeds `LiveBroker._registerOrder`: asserts the id is fresh and non-None
before inserting; an assertion failure is an error, never an overwrite. -/
def registerOrder (m : OrderMap) (o : Order) : Except String OrderMap :=
  match o.id with
  | none => .error "assert order.getId() is not None"
  | some k =>
    match lookupOrder m k with
    | some _ => .error "assert order.getId() not in activeOrders"
    | none => .ok (m ++ [(k, o)])

/-- Embeds `LiveBroker._unregisterOrder`: asserts the id is present and non-None
before deleting. -/
def unregisterOrder (m : OrderMap) (o : Order) : Except String (ℕ × OrderMap) :=
  match o.id with
  | none => .error "assert order.getId() is not None"
  | some k =>
    match lookupOrder m k with
    | none => .error "assert order.getId() in activeOrders"
    | some _ => .ok (k, eraseOrder m k)

/-- Python 2 `round(x, 2)` used on the cash balance, modelled as rounding to
two decimal places. -/
def round2 (q : ℚ) : ℚ := (round (q * 100) : ℚ) / 100

/-- Embeds `LiveBroker.refreshAccountBalance`: sets the stop flag, fetches
balances, caches cash (rounded to cents) and the asset position, and clears
the stop flag only if the fetch succeeded. Returns the new state, the calls
made and the propagated error, if any. -/
def refreshAccountBalance (b : BrokerState) (gw : Gateway) :
    BrokerState × List GatewayCall × Option String :=
  let b1 := { b with stop := true }
  match gw.balancesResp with
  | .error e => (b1, [.balances], some e)
  | .ok (cc2amt, cc1amt) =>
      ({ b1 with stop := false, cash := round2 cc2amt, shares := cc1amt },
       [.balances], none)

/-! ### Trade matches (`BinanceMatch`) and `_onUserTrade` -/

/-- The fields of a `BinanceMatch` the broker reads: the two counterparty
order ids (json fields `a` and `b`, in that probe order), price, size and
the trade timestamp. -/
structure Match where
  aId : ℕ
  bId : ℕ
  price : ℚ
  size : ℚ
  time : ℚ
deriving DecidableEq, Repr

/-- Embeds `BinanceMatch.involves(oidlist)`: the first of (`a`, `b`) that is a key
of the active-order map, else None. -/
def Match.involves (mt : Match) (keys : List ℕ) : Option ℕ :=
  if keys.contains mt.aId then some mt.aId
  else if keys.contains mt.bId then some mt.bId
  else none

/-- Embeds `LiveBroker.__fees(order, match)`: zero for a limit order, else
`0.0025 * match.price * match.size`. -/
def feesOf (o : Order) (mt : Match) : ℚ :=
  if o.otype == .Limit then 0 else (25 : ℚ) / 10000 * mt.price * mt.size

/-- The `broker.OrderExecutionInfo(match.price, match.size, fee, dt)`
record `_onUserTrade` builds for a matched order. -/
def tradeExecInfo (o : Order) (mt : Match) : OrderExecutionInfo :=
  ⟨some mt.price, mt.size, feesOf o mt, mt.time⟩

/-- Result of `_onUserTrade`: final broker state, emitted events, gateway
calls, the Python return value, and a propagated exception if any (in which
case `returned` is meaningless and left `false`). -/
structure TradeResult where
  broker : BrokerState
  events : List EmittedEvent
  calls : List GatewayCall
  returned : Bool
  error : Option String
deriving DecidableEq, Repr

/-- Embeds `LiveBroker._onUserTrade(match)`: looks the match's counterparty ids up
in the active-order map; on a hit refreshes the balance, builds an
Execution Info with the venue fee, appends it to the order, unregisters the
order if it became inactive, emits FILLED or PARTIALLY_FILLED carrying the
new execution info, and returns True; otherwise returns False untouched. -/
def onUserTrade (b : BrokerState) (mt : Match) (gw : Gateway) : TradeResult :=
  match mt.involves (b.activeOrders.map Prod.fst) with
  | none => ⟨b, [], [], false, none⟩
  | some oid =>
    match lookupOrder b.activeOrders oid with
    | none => ⟨b, [], [], false, none⟩
    | some order =>
      match refreshAccountBalance b gw with
      | (b1, calls1, some e) => ⟨b1, [], calls1, false, some e⟩
      | (b1, calls1, none) =>
        let oei := tradeExecInfo order mt
        let order1 := order.addExecutionInfo oei
        -- in-place mutation of the object the dict entry for oid points at
        let m1 := updateOrder b1.activeOrders oid order1
        -- order updated, do housekeeping
        if order1.isActive then
          let b2 := { b1 with activeOrders := m1 }
          let etype : EventType :=
            if order1.isFilled then .FILLED else .PARTIALLY_FILLED
          ⟨b2, [⟨etype, some oei, order1,
                 (lookupOrder b2.activeOrders oid).isSome⟩],
           calls1, true, none⟩
        else
          match unregisterOrder m1 order1 with
          | .error e =>
            ⟨{ b1 with activeOrders := m1 }, [], calls1, false, some e⟩
          | .ok (k, m2) =>
            let b2 := { b1 with activeOrders := m2 }
            let etype : EventType :=
              if order1.isFilled then .FILLED else .PARTIALLY_FILLED
            ⟨b2, [⟨etype, some oei, order1,
                   (lookupOrder b2.activeOrders k).isSome⟩],
             calls1, true, none⟩

/-! ### `submitOrder` and `cancelOrder` -/

/-- Result of `submitOrder`: the order object after any in-place mutation,
the broker state, event and call traces, and the raised error if any. -/
structure SubmitResult where
  order : Order
  broker : BrokerState
  events : List EmittedEvent
  calls : List GatewayCall
  error : Option String
deriving DecidableEq, Repr

/-- Steps of `submitOrder` after a successful gateway call: `setSubmitted`,
`_registerOrder`, switch INITIAL → SUBMITTED, then emit the SUBMITTED
event. -/
def submitAfterGateway (b : BrokerState) (o1 : Order) (gid : ℕ) (now : ℚ)
    (calls : List GatewayCall) : SubmitResult :=
  let o2 := o1.setSubmitted gid now
  match registerOrder b.activeOrders o2 with
  | .error e => ⟨o2, b, [], calls, some e⟩
  | .ok m2 =>
    -- Switch from INITIAL -> SUBMITTED (in-place, reflected in the map)
    let o3 := o2.switchState .Submitted
    let m3 := updateOrder m2 gid o3
    let b3 := { b with activeOrders := m3 }
    ⟨o3, b3,
     [⟨.SUBMITTED, none, o3, (lookupOrder m3 gid).isSome⟩],
     calls, none⟩

/-- Embeds `LiveBroker.submitOrder(order)`: on an Initial order, overrides
allOrNone/goodTillCanceled, places a LIMIT or MARKET order with the
gateway (raising for any other type before any call), and on success
assigns the id, registers, switches to Submitted and emits SUBMITTED; a
non-Initial order raises "The order was already processed" untouched. -/
def submitOrder (b : BrokerState) (o : Order) (gw : Gateway) (now : ℚ) :
    SubmitResult :=
  if o.isInitial then
    -- Override user settings based on venue limitations.
    let o1 := { o with allOrNone := false, goodTillCanceled := true }
    let side : Side := if o1.isBuy then .Buy else .Sell
    match o1.otype with
    | .Limit =>
      let call := GatewayCall.limitorder side o1.limitPrice o1.quantity
      match gw.limitorderResp with
      | .error e => ⟨o1, b, [], [call], some e⟩
      | .ok gid => submitAfterGateway b o1 gid now [call]
    | .Market =>
      let call := GatewayCall.marketorder side o1.quantity
      match gw.marketorderResp with
      | .error e => ⟨o1, b, [], [call], some e⟩
      | .ok gid => submitAfterGateway b o1 gid now [call]
    | _ => ⟨o1, b, [], [], some "binance only does LIMIT and MARKET orders"⟩
  else
    ⟨o, b, [], [], some "The order was already processed"⟩

/-- The gateway response `submitOrder` consumes for a given order: the
limit-order endpoint for a LIMIT order, the market-order endpoint for a
MARKET order. -/
def gwPlace (gw : Gateway) (o : Order) : Except String ℕ :=
  match o.otype with
  | .Limit => gw.limitorderResp
  | .Market => gw.marketorderResp
  | _ => .error "unsupported"

/-- Well-formedness of the active-order map: every stored order object
carries the key it is registered under (maintained by `_registerOrder`,
which stores each order under its own id). -/
def WFRegistry (m : OrderMap) : Prop := ∀ p ∈ m, p.2.id = some p.1

/-- Result of `cancelOrder`. -/
structure CancelResult where
  broker : BrokerState
  calls : List GatewayCall
  error : Option String
deriving DecidableEq, Repr

/-- Embeds `LiveBroker.cancelOrder(order)`: raises without any gateway call when
the order is not in the active map or the active entry is filled; otherwise
sends the cancel request and changes no local state (the authoritative
transition arrives later on the order-status channel). -/
def cancelOrder (b : BrokerState) (o : Order) (gw : Gateway) : CancelResult :=
  match o.id.bind (lookupOrder b.activeOrders) with
  | none => ⟨b, [], some "The order is not active anymore"⟩
  | some activeOrder =>
    if activeOrder.isFilled then
      ⟨b, [], some "Can't cancel order that has already been filled"⟩
    else
      -- submit the cancel request
      match gw.cancelResp with
      | .error e => ⟨b, [.cancelOrder (o.id.getD 0)], some e⟩
      | .ok _ => ⟨b, [.cancelOrder (o.id.getD 0)], none⟩

/-! ### Startup: `refreshOpenOrders`, `_startTradeMonitor`, `start` -/

/-- The registration loop of `refreshOpenOrders`: register each
pre-existing open order, aborting on the first assertion failure. -/
def registerAll (m : OrderMap) : List Order → Except String OrderMap
  | [] => .ok m
  | o :: rest =>
    match registerOrder m o with
    | .error e => .error e
    | .ok m1 => registerAll m1 rest

/-- Embeds `LiveBroker.refreshOpenOrders`: sets the stop flag, fetches the open
orders for the symbol, registers each of them, and clears the stop flag
only if everything succeeded. -/
def refreshOpenOrders (b : BrokerState) (gw : Gateway) :
    BrokerState × List GatewayCall × Option String :=
  let b1 := { b with stop := true }
  match gw.openOrdersResp with
  | .error e => (b1, [.openOrders], some e)
  | .ok orders =>
    match registerAll b1.activeOrders orders with
    | .error e => (b1, [.openOrders], some e)
    | .ok m1 => ({ b1 with stop := false, activeOrders := m1 },
                 [.openOrders], none)

/-- Embeds `LiveBroker._startTradeMonitor`: sets the stop flag, starts the stream
consumer, clears the stop flag only on success. -/
def startTradeMonitor (b : BrokerState) (gw : Gateway) :
    BrokerState × List GatewayCall × Option String :=
  let b1 := { b with stop := true }
  match gw.monitorResp with
  | .error e => (b1, [.startMonitor], some e)
  | .ok _ => ({ b1 with stop := false }, [.startMonitor], none)

/-- Result of `start`. -/
structure StartResult where
  broker : BrokerState
  calls : List GatewayCall
  error : Option String
deriving DecidableEq, Repr

/-- Embeds `LiveBroker.start()`: refresh balances, then fetch and register the
pre-existing open orders, then start the stream consumer, in that order,
aborting on the first failure (each phase leaves the stop flag set if it
fails). -/
def startBroker (b : BrokerState) (gw : Gateway) : StartResult :=
  match refreshAccountBalance b gw with
  | (b1, c1, some e) => ⟨b1, c1, some e⟩
  | (b1, c1, none) =>
    match refreshOpenOrders b1 gw with
    | (b2, c2, some e) => ⟨b2, c1 ++ c2, some e⟩
    | (b2, c2, none) =>
      match startTradeMonitor b2 gw with
      | (b3, c3, some e) => ⟨b3, c1 ++ c2 ++ c3, some e⟩
      | (b3, c3, none) => ⟨b3, c1 ++ c2 ++ c3, none⟩

/-! ### The order-status channel: `OrderStateChange` and `onChangeEvent` -/

/-- A Python-level exception raised by `netclients`/`wsclient` helpers. -/
inductive PyErr where
  | valueError (msg : String)
  | keyError (field : String)
deriving DecidableEq, Repr

/-- Decimal-string parsing, modelling Python `float(s)` on the
nonnegative decimal literals the venue sends (result as an exact
rational); any other string fails like Python's ValueError. -/
def parseDigits : List Char → Option ℕ
  | [] => none
  | cs => cs.foldlM
      (fun acc c =>
        if c.isDigit then some (acc * 10 + (c.toNat - 48)) else none)
      0

/-- Splits a character list at its first dot (the shape of
`s.split('.')` for the at-most-one-dot strings `float` accepts; with more
dots the leftover dot makes the digit parse fail, as the extra part does
for Python). -/
def splitDot : List Char → List Char × Option (List Char)
  | [] => ([], none)
  | c :: cs =>
    if c = '.' then ([], some cs)
    else ((splitDot cs).1.cons c, (splitDot cs).2)

/-- Python `float(s)` for nonnegative decimal strings. -/
def parseDec (s : String) : Option ℚ :=
  match splitDot s.toList with
  | (w, none) => (parseDigits w).map (fun n => (n : ℚ))
  | (w, some f) =>
    match parseDigits w, parseDigits f with
    | some n, some m => some ((n : ℚ) + (m : ℚ) / (10 : ℚ) ^ f.length)
    | _, _ => none

/-- Python `int(s)` for nonnegative integer strings. -/
def parseIntStr (s : String) : Option ℤ :=
  (parseDigits s.toList).map (fun n => (n : ℤ))

/-- The fields of a venue order-status push (`OrderStateChange._j`) that
`__parse`/`oei` read. The timestamp is carried pre-parsed (the claims never
inspect it). -/
structure ChangeMsg where
  order_id : ℕ
  mtype : String
  reason : Option String
  remaining_size : Option String
  price : Option String
  time : ℚ
deriving DecidableEq, Repr

/-- Embeds `OrderStateChange.__parse`: maps the wire message to (new state, event
type) — `received` → Accepted, `done`+`filled`+remaining "0" → Filled,
other `done` → Canceled, anything else → None — and parses the optional
price. Reading `json['reason']` on a `done` message without one raises. -/
def parseChange (c : ChangeMsg) :
    Except PyErr (Option (OrderState × EventType) × Option ℚ) :=
  let se : Except PyErr (Option (OrderState × EventType)) :=
    if c.mtype == "received" then
      .ok (some (OrderState.Accepted, EventType.ACCEPTED))
    else if c.mtype == "done" then
      match c.reason with
      | none => .error (.keyError "reason")
      | some r =>
        if r == "filled" && c.remaining_size == some "0" then
          .ok (some (OrderState.Filled, EventType.FILLED))
        else
          .ok (some (OrderState.Canceled, EventType.CANCELED))
    else
      .ok none
  match se with
  | .error e => .error e
  | .ok sev =>
    match c.price with
    | none => .ok (sev, none)
    | some ps =>
      match parseDec ps with
      | none => .error (.valueError "could not convert string to float")
      | some q => .ok (sev, some q)

/-- Embeds `OrderStateChange.oei(order)`: None unless the message's reason is
`filled`; otherwise an Execution Info whose size is the order's unfilled
quantity minus the message's remaining size, with zero fee. -/
def changeOei (c : ChangeMsg) (price : Option ℚ) (o : Order) :
    Except PyErr (Option OrderExecutionInfo) :=
  if (c.reason.getD "") != "filled" then
    .ok none
  else
    let ounfilled := o.quantity - o.filled
    match c.remaining_size with
    | none => .ok (some ⟨price, ounfilled - 0, 0, c.time⟩)
    | some s =>
      match parseDec s with
      | none => .error (.valueError "could not convert string to float")
      | some sizeleft => .ok (some ⟨price, ounfilled - sizeleft, 0, c.time⟩)

/-- Result of `onChangeEvent`. -/
structure ChangeResult where
  broker : BrokerState
  events : List EmittedEvent
  calls : List GatewayCall
  error : Option String
deriving DecidableEq, Repr

/-- Embeds `LiveBroker.onChangeEvent(change)`: ignores unknown order ids and a
None new state; appends the change's execution info when present, emitting
an extra event (and clearing the info) if the state then still differs from
the target; switches the state if it differs; emits the event; and if the
order ended inactive, unregisters it and refreshes the balance. -/
def onChangeEvent (b : BrokerState) (c : ChangeMsg) (gw : Gateway) :
    ChangeResult :=
  match parseChange c with
  | .error e => ⟨b, [], [], some (reprStr e)⟩
  | .ok (se, price) =>
    if (lookupOrder b.activeOrders c.order_id).isNone then ⟨b, [], [], none⟩
    else
      match se with
      | none => ⟨b, [], [], none⟩
      | some (newstate, etype) =>
        match lookupOrder b.activeOrders c.order_id with
        | none => ⟨b, [], [], none⟩
        | some order =>
          match changeOei c price order with
          | .error e => ⟨b, [], [], some (reprStr e)⟩
          | .ok oei0 =>
            -- if oei is not None: append it, and pre-notify if the state
            -- still differs from the target
            let step1 :
                Order × Option OrderExecutionInfo × List EmittedEvent :=
              match oei0 with
              | none => (order, none, [])
              | some e0 =>
                let ord1 := order.addExecutionInfo e0
                if newstate != ord1.state then
                  (ord1, none,
                   [⟨etype, some e0, ord1,
                     (lookupOrder (updateOrder b.activeOrders c.order_id ord1)
                        c.order_id).isSome⟩])
                else
                  (ord1, some e0, [])
            let ord1 := step1.1
            let oei1 := step1.2.1
            let evs1 := step1.2.2
            let ord2 :=
              if newstate != ord1.state then ord1.switchState newstate
              else ord1
            let m2 := updateOrder b.activeOrders c.order_id ord2
            let evs2 := evs1 ++
              [⟨etype, oei1, ord2, (lookupOrder m2 c.order_id).isSome⟩]
            if ord2.isActive then
              ⟨{ b with activeOrders := m2 }, evs2, [], none⟩
            else
              match unregisterOrder m2 ord2 with
              | .error e => ⟨{ b with activeOrders := m2 }, evs2, [], some e⟩
              | .ok (_, m3) =>
                match refreshAccountBalance { b with activeOrders := m3 } gw with
                | (b2, calls2, err) => ⟨b2, evs2, calls2, err⟩

/-! ### `netclients.toBookMessages` -/

/-- Embeds `netclients.flmath(n) = round(n, 12)`: rounding to 12 decimal
places. -/
def flmath (q : ℚ) : ℚ := (round (q * 10 ^ 12) : ℚ) / 10 ^ 12

/-- The kind of book message constructed (`orderbook.Increase` /
`orderbook.Decrease`). -/
inductive DeltaKind where
  | Increase
  | Decrease
deriving DecidableEq, Repr

/-- One canonical book delta `mtype(rts, VENUE, symbol, price, size,
side)`. -/
structure BookDelta where
  kind : DeltaKind
  rts : ℤ
  venue : String
  symbol : String
  price : ℚ
  size : ℚ
  side : Side
deriving DecidableEq, Repr

/-- The fields of a decoded venue book message that `toBookMessages`
reads. Absent dict keys are `none`; `cbase[k]` on an absent key raises
KeyError. -/
structure BookMsg where
  mtype : String
  order_type : Option String
  side : Option String
  price : Option String
  remaining_size : Option String
  size : Option String
  old_size : Option String
  new_size : Option String
  sequence : Option String
deriving DecidableEq, Repr

/-- Embeds `float(s)`: ValueError when the string is not a decimal literal. -/
def pyFloat (s : String) : Except PyErr ℚ :=
  match parseDec s with
  | none => .error (.valueError "could not convert string to float")
  | some q => .ok q

/-- The per-message-type (kind, size) computation of `toBookMessages`:
done/open use `remaining_size`, match uses `size`, change uses
`flmath(old_size - new_size)`; an unknown type raises ValueError. Reading
an absent field raises KeyError. -/
def kindSize (m : BookMsg) : Except PyErr (DeltaKind × ℚ) :=
  if m.mtype == "done" then
    match m.remaining_size with
    | none => .error (.keyError "remaining_size")
    | some s =>
      match pyFloat s with
      | .error e => .error e
      | .ok q => .ok (DeltaKind.Decrease, q)
  else if m.mtype == "open" then
    match m.remaining_size with
    | none => .error (.keyError "remaining_size")
    | some s =>
      match pyFloat s with
      | .error e => .error e
      | .ok q => .ok (DeltaKind.Increase, q)
  else if m.mtype == "match" then
    match m.size with
    | none => .error (.keyError "size")
    | some s =>
      match pyFloat s with
      | .error e => .error e
      | .ok q => .ok (DeltaKind.Decrease, q)
  else if m.mtype == "change" then
    match m.old_size, m.new_size with
    | none, _ => .error (.keyError "old_size")
    | some _, none => .error (.keyError "new_size")
    | some os, some ns =>
      match pyFloat os, pyFloat ns with
      | .error e, _ => .error e
      | .ok _, .error e => .error e
      | .ok oq, .ok nq => .ok (DeltaKind.Decrease, flmath (oq - nq))
  else
    .error (.valueError "Unknown binance message")

/-- The part of `toBookMessages` after the `received`/`done`-market early
returns: side decoding, the price-presence check, the per-type size
computation and the final delta construction. The source performs the
`price == 'null'` check inside the `change` branch of the size
computation; it is hoisted here under the same `mtype == "change"` guard,
which reaches the identical outcome on every input. -/
def toBookMessagesTail (m : BookMsg) (symbol : String) :
    Except PyErr (List BookDelta) :=
  match m.side with
  | none => .error (.keyError "side")
  | some sd =>
    match (if sd == "buy" then .ok .Buy
           else if sd == "sell" then .ok .Sell
           else .error (.valueError "Unknown side") : Except PyErr Side) with
    | .error e => .error e
    | .ok side =>
      match m.price with
      | none => .ok []     -- change of a market order
      | some price =>
        if m.mtype == "change" && price == "null" then .ok []
        else
          match kindSize m with
          | .error e => .error e
          | .ok ks =>
            match m.sequence with
            | none => .error (.keyError "sequence")
            | some seqStr =>
              match parseIntStr seqStr with
              | none => .error (.valueError "invalid literal for int")
              | some rts =>
                match pyFloat price with
                | .error e => .error e
                | .ok p => .ok [⟨ks.1, rts, "binance", symbol, p, ks.2, side⟩]

/-- Embeds `netclients.toBookMessages(binance_json, symbol)`: converts a venue
json message into a list of canonical book deltas, empty for messages that
produce no book mutation, raising ValueError on an unknown side or message
type. -/
def toBookMessages (m : BookMsg) (symbol : String) :
    Except PyErr (List BookDelta) :=
  if m.mtype == "received" then .ok []
  else if m.mtype == "done" then
    match m.order_type with
    | none => .error (.keyError "order_type")
    | some ot =>
      if ot == "market" then .ok []
      else toBookMessagesTail m symbol
  else toBookMessagesTail m symbol

/-! ### Concrete fixtures used by the witnesses -/

/-- A registered limit BUY order, quantity 1 at price 100, Accepted. -/
def ordAcc : Order :=
  ⟨some 7, .Limit, .Buy, 1, 100, .Accepted, 0, [], false, true, some 0⟩

/-- A broker tracking `ordAcc` under venue id 7. -/
def bAcc : BrokerState := ⟨false, 50, 2, [(7, ordAcc)]⟩

/-- A gateway on which every call succeeds; newly placed orders get id 9. -/
def gwOk : Gateway := ⟨.ok (10, 3), .ok [], .ok 9, .ok 9, .ok (), .ok ()⟩

/-- A gateway on which every call fails. -/
def gwDown : Gateway :=
  ⟨.error "HTTP 500", .error "HTTP 500", .error "HTTP 500",
   .error "HTTP 500", .error "HTTP 500", .error "HTTP 500"⟩

/-- An unsubmitted limit BUY order as a strategy would create it, with the
caller-set flags `submitOrder` overrides. -/
def ordNew : Order :=
  ⟨none, .Limit, .Buy, 1, 100, .Initial, 0, [], true, false, none⟩

/-! ### Auxiliary lemmas -/

theorem lookupOrder_mem (m : OrderMap) (k : ℕ) (o : Order)
    (h : lookupOrder m k = some o) : (k, o) ∈ m := by
  induction m with
  | nil => simp [lookupOrder] at h
  | cons p t ih =>
    rw [lookupOrder_cons] at h
    by_cases hp : p.1 = k
    · rw [if_pos hp] at h
      have hpo : p.2 = o := by simpa using h
      have : p = (k, o) := by
        cases p; cases hp; cases hpo; rfl
      rw [← this]
      exact List.mem_cons_self p t
    · rw [if_neg hp] at h
      exact List.mem_cons_of_mem _ (ih h)

theorem lookupOrder_id_of_wf (m : OrderMap) (k : ℕ) (o : Order)
    (hwf : WFRegistry m) (h : lookupOrder m k = some o) : o.id = some k :=
  hwf (k, o) (lookupOrder_mem m k o h)

theorem involves_mem (mt : Match) (keys : List ℕ) (k : ℕ)
    (h : mt.involves keys = some k) : k ∈ keys := by
  unfold Match.involves at h
  by_cases ha : keys.contains mt.aId
  · rw [if_pos ha] at h
    obtain rfl : mt.aId = k := by simpa using h
    simpa using ha
  · rw [if_neg ha] at h
    by_cases hb : keys.contains mt.bId
    · rw [if_pos hb] at h
      obtain rfl : mt.bId = k := by simpa using h
      simpa using hb
    · rw [if_neg hb] at h
      exact absurd h (by simp)

/-! ### Claim C2 -/

/-- Claim C2: For every order not in the Initial state, `submitOrder` fails
with the "already processed" error, makes no gateway call, and leaves the
order, the active-order map and all broker state unchanged. -/
theorem C2_submit_nonInitial_fails (b : BrokerState) (o : Order)
    (gw : Gateway) (now : ℚ) (h : o.isInitial = false) :
    (submitOrder b o gw now).error = some "The order was already processed" ∧
    (submitOrder b o gw now).calls = [] ∧
    (submitOrder b o gw now).events = [] ∧
    (submitOrder b o gw now).order = o ∧
    (submitOrder b o gw now).broker = b := by
  simp [submitOrder, h]

/-- Witness for C2: submitting the already-Accepted `ordAcc` fails with no
gateway call and no state change. -/
theorem C2_witness :
    ordAcc.isInitial = false ∧
    (submitOrder bAcc ordAcc gwOk 3).error =
      some "The order was already processed" ∧
    (submitOrder bAcc ordAcc gwOk 3).calls = [] ∧
    (submitOrder bAcc ordAcc gwOk 3).broker = bAcc := by
  have h := C2_submit_nonInitial_fails bAcc ordAcc gwOk 3 (by decide)
  exact ⟨by decide, h.1, h.2.1, h.2.2.2.2⟩

/-! ### Claim C6 -/

/-- Claim C6: Registering an order whose id is already in the active map, or
unregistering one whose id is absent, raises an assertion error; a
successful registration proves the id was absent and appends, never
overwriting an entry. -/
theorem C6_registry_fails_loudly (m : OrderMap) (o : Order) (k : ℕ)
    (hid : o.id = some k) :
    ((lookupOrder m k).isSome → ∃ e, registerOrder m o = .error e) ∧
    (lookupOrder m k = none → ∃ e, unregisterOrder m o = .error e) ∧
    (∀ m1, registerOrder m o = .ok m1 →
       lookupOrder m k = none ∧ m1 = m ++ [(k, o)]) := by
  refine ⟨?_, ?_, ?_⟩
  · intro h
    cases hl : lookupOrder m k with
    | none => rw [hl] at h; exact absurd h (by simp)
    | some p =>
      exact ⟨"assert order.getId() not in activeOrders",
        by simp [registerOrder, hid, hl]⟩
  · intro h
    exact ⟨"assert order.getId() in activeOrders",
      by simp [unregisterOrder, hid, h]⟩
  · intro m1 h
    simp only [registerOrder, hid] at h
    cases hl : lookupOrder m k with
    | some p => rw [hl] at h; simp at h
    | none =>
      rw [hl] at h
      simp only [Except.ok.injEq] at h
      exact ⟨rfl, h.symm⟩

/-- Witness for C6: re-registering id 7 on `bAcc` fails loudly, as does
unregistering the absent id 8. -/
theorem C6_witness :
    (∃ e, registerOrder bAcc.activeOrders
        { ordNew with id := some 7 } = .error e) ∧
    (∃ e, unregisterOrder bAcc.activeOrders
        { ordNew with id := some 8 } = .error e) := by
  refine ⟨(C6_registry_fails_loudly bAcc.activeOrders
      { ordNew with id := some 7 } 7 rfl).1 (by decide),
    (C6_registry_fails_loudly bAcc.activeOrders
      { ordNew with id := some 8 } 8 rfl).2.1 (by decide)⟩

/-! ### Claim C5 -/

/-- Claim C5: `cancelOrder` fails synchronously with no gateway call when the
order is not in the active map or the active entry is filled; otherwise it
sends exactly the cancel request and leaves all broker state unchanged. -/
theorem C5_cancel_spec (b : BrokerState) (o : Order) (gw : Gateway) :
    (o.id.bind (lookupOrder b.activeOrders) = none →
       (cancelOrder b o gw).error = some "The order is not active anymore" ∧
       (cancelOrder b o gw).calls = [] ∧
       (cancelOrder b o gw).broker = b) ∧
    (∀ ao, o.id.bind (lookupOrder b.activeOrders) = some ao →
       ao.isFilled = true →
       (cancelOrder b o gw).error =
         some "Can't cancel order that has already been filled" ∧
       (cancelOrder b o gw).calls = [] ∧
       (cancelOrder b o gw).broker = b) ∧
    (∀ k ao, o.id = some k → lookupOrder b.activeOrders k = some ao →
       ao.isFilled = false →
       (cancelOrder b o gw).calls = [GatewayCall.cancelOrder k] ∧
       (cancelOrder b o gw).broker = b) := by
  refine ⟨?_, ?_, ?_⟩
  · intro h
    simp [cancelOrder, h]
  · intro ao h hf
    simp [cancelOrder, h, hf]
  · intro k ao hk hl hf
    cases hc : gw.cancelResp with
    | error e => simp [cancelOrder, hk, hl, hf, hc]
    | ok u => simp [cancelOrder, hk, hl, hf, hc]

/-- Witness for C5: cancelling the unknown order `ordNew` with id 8 fails
with no gateway call; cancelling the active, unfilled `ordAcc` sends
exactly one cancel request and leaves the broker unchanged. -/
theorem C5_witness :
    (cancelOrder bAcc { ordNew with id := some 8 } gwOk).error =
      some "The order is not active anymore" ∧
    (cancelOrder bAcc { ordNew with id := some 8 } gwOk).calls = [] ∧
    (cancelOrder bAcc ordAcc gwOk).calls = [GatewayCall.cancelOrder 7] ∧
    (cancelOrder bAcc ordAcc gwOk).broker = bAcc := by
  have h1 := (C5_cancel_spec bAcc { ordNew with id := some 8 } gwOk).1 (by decide)
  have h2 := (C5_cancel_spec bAcc ordAcc gwOk).2.2 7 ordAcc rfl (by decide) (by decide)
  exact ⟨h1.1, h1.2.1, h2.1, h2.2⟩

/-! ### Claim C7 -/

/-- Claim C7: `start` performs balance refresh, then fetch-and-register of
open orders, then starting the stream consumer, in strict order (the call
trace is always a prefix of that sequence); on full success the stop flag
is cleared, and on any failure the stop flag is already set when the error
surfaces, so `eof()` reports stopped. -/
theorem C7_start_spec (b : BrokerState) (gw : Gateway) :
    ((startBroker b gw).error = none →
       (startBroker b gw).calls =
         [GatewayCall.balances, GatewayCall.openOrders,
          GatewayCall.startMonitor] ∧
       (startBroker b gw).broker.stop = false) ∧
    ((startBroker b gw).error.isSome → eofB (startBroker b gw).broker = true) ∧
    (startBroker b gw).calls =
      [GatewayCall.balances, GatewayCall.openOrders,
       GatewayCall.startMonitor].take (startBroker b gw).calls.length := by
  cases hb : gw.balancesResp with
  | error e =>
    simp [startBroker, refreshAccountBalance, hb, eofB]
  | ok v =>
    obtain ⟨c2, c1⟩ := v
    cases ho : gw.openOrdersResp with
    | error e =>
      simp [startBroker, refreshAccountBalance, refreshOpenOrders, hb, ho,
        eofB]
    | ok lst =>
      cases hr : registerAll b.activeOrders lst with
      | error e =>
        simp [startBroker, refreshAccountBalance, refreshOpenOrders, hb, ho,
          hr, eofB]
      | ok m1 =>
        cases hm : gw.monitorResp with
        | error e =>
          simp [startBroker, refreshAccountBalance, refreshOpenOrders,
            startTradeMonitor, hb, ho, hr, hm, eofB]
        | ok u =>
          simp [startBroker, refreshAccountBalance, refreshOpenOrders,
            startTradeMonitor, hb, ho, hr, hm, eofB]

/-- Witness for C7: with the failing gateway, `start` leaves `eof()` true
after attempting only the balance refresh; with the healthy gateway it
performs the three phases in order and clears the stop flag. -/
theorem C7_witness :
    eofB (startBroker bAcc gwDown).broker = true ∧
    (startBroker bAcc gwDown).calls = [GatewayCall.balances] ∧
    (startBroker bAcc gwOk).calls =
      [GatewayCall.balances, GatewayCall.openOrders,
       GatewayCall.startMonitor] ∧
    (startBroker bAcc gwOk).broker.stop = false := by
  have h1 := (C7_start_spec bAcc gwDown).2.1 (by decide)
  have h2 := (C7_start_spec bAcc gwOk).1 (by decide)
  exact ⟨h1, by decide, h2.1, h2.2⟩

/-! ### Claims C3, C9: `submitOrder` on an Initial order -/

theorem lookupOrder_append_fresh (m : OrderMap) (k : ℕ) (o : Order)
    (h : lookupOrder m k = none) :
    lookupOrder (m ++ [(k, o)]) k = some o := by
  rw [lookupOrder_append_right m (k, o) k h, lookupOrder_cons]
  simp

/-- Under a fresh venue id, the post-gateway steps of `submitOrder` yield
the submitted order registered in the map with a single SUBMITTED event
emitted after both the registration and the state switch. -/
theorem submitAfterGateway_eq (b : BrokerState) (o1 : Order) (gid : ℕ)
    (now : ℚ) (calls : List GatewayCall)
    (hfresh : lookupOrder b.activeOrders gid = none) :
    submitAfterGateway b o1 gid now calls =
      ⟨(o1.setSubmitted gid now).switchState .Submitted,
       ⟨b.stop, b.cash, b.shares,
        updateOrder (b.activeOrders ++ [(gid, o1.setSubmitted gid now)])
          gid ((o1.setSubmitted gid now).switchState .Submitted)⟩,
       [⟨.SUBMITTED, none, (o1.setSubmitted gid now).switchState .Submitted,
         true⟩],
       calls, none⟩ := by
  have hreg : registerOrder b.activeOrders (o1.setSubmitted gid now) =
      .ok (b.activeOrders ++ [(gid, o1.setSubmitted gid now)]) := by
    simp [registerOrder, Order.setSubmitted, hfresh]
  have hsome : (lookupOrder
      (b.activeOrders ++ [(gid, o1.setSubmitted gid now)]) gid).isSome := by
    rw [lookupOrder_append_fresh _ _ _ hfresh]; rfl
  have hlook := lookupOrder_update_self
    (b.activeOrders ++ [(gid, o1.setSubmitted gid now)]) gid
    ((o1.setSubmitted gid now).switchState .Submitted) hsome
  simp [submitAfterGateway, hreg, hlook]

/-- The two gateway-call shapes `submitOrder` can take on an Initial
LIMIT/MARKET order, with the flag-overridden order it sends. -/
theorem submitOrder_gateway_path (b : BrokerState) (o : Order) (gw : Gateway)
    (now : ℚ) (hInit : o.isInitial = true)
    (hty : o.otype = OrderType.Limit ∨ o.otype = OrderType.Market) :
    ∃ call,
      (∀ gid, gwPlace gw o = .ok gid →
        submitOrder b o gw now = submitAfterGateway b
          { o with allOrNone := false, goodTillCanceled := true }
          gid now [call]) ∧
      (∀ emsg, gwPlace gw o = .error emsg →
        submitOrder b o gw now =
          ⟨{ o with allOrNone := false, goodTillCanceled := true }, b, [],
           [call], some emsg⟩) := by
  rcases hty with h | h
  · refine ⟨GatewayCall.limitorder (if o.isBuy then .Buy else .Sell)
      o.limitPrice o.quantity, ?_, ?_⟩
    · intro gid hgw
      simp only [gwPlace, h] at hgw
      simp [submitOrder, hInit, h, hgw, Order.isBuy]
    · intro emsg hgw
      simp only [gwPlace, h] at hgw
      simp [submitOrder, hInit, h, hgw, Order.isBuy]
  · refine ⟨GatewayCall.marketorder (if o.isBuy then .Buy else .Sell)
      o.quantity, ?_, ?_⟩
    · intro gid hgw
      simp only [gwPlace, h] at hgw
      simp [submitOrder, hInit, h, hgw, Order.isBuy]
    · intro emsg hgw
      simp only [gwPlace, h] at hgw
      simp [submitOrder, hInit, h, hgw, Order.isBuy]

/-- Claim C3: Submitting an Initial LIMIT/MARKET order: when the gateway call
returns a fresh id, the id is assigned, the order is registered and
switched to Submitted, and the single SUBMITTED event is emitted only after
both (its snapshot shows the Submitted, registered order); when the gateway
call fails, the order stays Initial, nothing is registered, no event is
emitted, and the error propagates synchronously. -/
theorem C3_submit_initial_spec (b : BrokerState) (o : Order) (gw : Gateway)
    (now : ℚ) (gid : ℕ) (hInit : o.isInitial = true)
    (hty : o.otype = OrderType.Limit ∨ o.otype = OrderType.Market)
    (hfresh : lookupOrder b.activeOrders gid = none) :
    (gwPlace gw o = .ok gid →
       (submitOrder b o gw now).error = none ∧
       (submitOrder b o gw now).order.id = some gid ∧
       (submitOrder b o gw now).order.state = OrderState.Submitted ∧
       lookupOrder (submitOrder b o gw now).broker.activeOrders gid =
         some (submitOrder b o gw now).order ∧
       (submitOrder b o gw now).events =
         [⟨EventType.SUBMITTED, none, (submitOrder b o gw now).order,
           true⟩]) ∧
    (∀ emsg, gwPlace gw o = .error emsg →
       (submitOrder b o gw now).error = some emsg ∧
       (submitOrder b o gw now).order.state = OrderState.Initial ∧
       (submitOrder b o gw now).broker = b ∧
       (submitOrder b o gw now).events = []) := by
  obtain ⟨call, hok, herr⟩ := submitOrder_gateway_path b o gw now hInit hty
  constructor
  · intro hgw
    rw [hok gid hgw, submitAfterGateway_eq b _ gid now [call] hfresh]
    have hsome : (lookupOrder (b.activeOrders ++
        [(gid, ({ o with allOrNone := false, goodTillCanceled := true
          } : Order).setSubmitted gid now)]) gid).isSome := by
      rw [lookupOrder_append_fresh _ _ _ hfresh]; rfl
    refine ⟨rfl, rfl, rfl, ?_, rfl⟩
    exact lookupOrder_update_self _ gid _ hsome
  · intro emsg hgw
    rw [herr emsg hgw]
    have hstate : o.state = OrderState.Initial := by
      have := hInit
      unfold Order.isInitial at this
      simpa using this
    exact ⟨rfl, hstate, rfl, rfl⟩

/-- Witness for C3: submitting the fresh `ordNew` on the healthy gateway
assigns id 9, registers, switches to Submitted and emits the single
SUBMITTED event after both; on the failing gateway the error propagates
with the order left Initial and unregistered. -/
theorem C3_witness :
    (submitOrder bAcc ordNew gwOk 3).error = none ∧
    (submitOrder bAcc ordNew gwOk 3).order.id = some 9 ∧
    (submitOrder bAcc ordNew gwOk 3).order.state = OrderState.Submitted ∧
    lookupOrder (submitOrder bAcc ordNew gwOk 3).broker.activeOrders 9 =
      some (submitOrder bAcc ordNew gwOk 3).order ∧
    (submitOrder bAcc ordNew gwOk 3).events =
      [⟨EventType.SUBMITTED, none, (submitOrder bAcc ordNew gwOk 3).order,
        true⟩] ∧
    (submitOrder bAcc ordNew gwDown 3).error = some "HTTP 500" ∧
    (submitOrder bAcc ordNew gwDown 3).order.state = OrderState.Initial ∧
    (submitOrder bAcc ordNew gwDown 3).broker = bAcc := by
  have h1 := (C3_submit_initial_spec bAcc ordNew gwOk 3 9 (by decide)
    (Or.inl rfl) (by decide)).1 rfl
  have h2 := (C3_submit_initial_spec bAcc ordNew gwDown 3 9 (by decide)
    (Or.inl rfl) (by decide)).2 "HTTP 500" rfl
  exact ⟨h1.1, h1.2.1, h1.2.2.1, h1.2.2.2.1, h1.2.2.2.2, h2.1, h2.2.1,
    h2.2.2.1⟩

/-- Claim C9: Every order successfully submitted through `submitOrder`
carries allOrNone = false and goodTillCanceled = true at the moment the
SUBMITTED event is emitted, whatever the caller had set. -/
theorem C9_submit_overrides_flags (b : BrokerState) (o : Order)
    (gw : Gateway) (now : ℚ) (gid : ℕ) (hInit : o.isInitial = true)
    (hty : o.otype = OrderType.Limit ∨ o.otype = OrderType.Market)
    (hfresh : lookupOrder b.activeOrders gid = none)
    (hgw : gwPlace gw o = .ok gid) :
    (submitOrder b o gw now).events.length = 1 ∧
    ∀ e ∈ (submitOrder b o gw now).events,
      e.eventType = EventType.SUBMITTED ∧
      e.orderAtEmit.allOrNone = false ∧
      e.orderAtEmit.goodTillCanceled = true := by
  obtain ⟨call, hok, _⟩ := submitOrder_gateway_path b o gw now hInit hty
  rw [hok gid hgw, submitAfterGateway_eq b _ gid now [call] hfresh]
  refine ⟨rfl, ?_⟩
  intro e he
  simp only [List.mem_singleton] at he
  subst he
  exact ⟨rfl, rfl, rfl⟩

/-- Witness for C9: `ordNew` was created with allOrNone = true and
goodTillCanceled = false, yet its SUBMITTED event shows both overridden. -/
theorem C9_witness :
    ordNew.allOrNone = true ∧ ordNew.goodTillCanceled = false ∧
    (submitOrder bAcc ordNew gwOk 3).events.length = 1 ∧
    ∀ e ∈ (submitOrder bAcc ordNew gwOk 3).events,
      e.eventType = EventType.SUBMITTED ∧
      e.orderAtEmit.allOrNone = false ∧
      e.orderAtEmit.goodTillCanceled = true := by
  have h := C9_submit_overrides_flags bAcc ordNew gwOk 3 9 (by decide)
    (Or.inl rfl) (by decide) rfl
  exact ⟨rfl, rfl, h.1, h.2⟩

/-! ### Claims C4, C8: `_onUserTrade` -/

/-- A venue trade match hitting the registered order id 7: 0.4 @ 100. -/
def mtHit : Match := ⟨7, 99, 100, (2 : ℚ)/5, 5⟩

/-- A venue trade match touching no registered order. -/
def mtMiss : Match := ⟨1, 2, 100, 1, 5⟩

theorem addExecutionInfo_id (o : Order) (e : OrderExecutionInfo) :
    (o.addExecutionInfo e).id = o.id := rfl

theorem addExecutionInfo_execInfo (o : Order) (e : OrderExecutionInfo) :
    (o.addExecutionInfo e).execInfo = o.execInfo ++ [e] := rfl

/-- After an append the order is either Filled (inactive) or
PartiallyFilled (active, not filled). -/
theorem addExecutionInfo_case (o : Order) (e : OrderExecutionInfo) :
    ((o.addExecutionInfo e).isActive = true ∧
     (o.addExecutionInfo e).isFilled = false ∧
     (o.addExecutionInfo e).state = OrderState.PartiallyFilled) ∨
    ((o.addExecutionInfo e).isActive = false ∧
     (o.addExecutionInfo e).isFilled = true ∧
     (o.addExecutionInfo e).state = OrderState.Filled) := by
  unfold Order.addExecutionInfo Order.isActive Order.isFilled
  by_cases h : (o.filled + e.size == o.quantity) = true
  · right; simp [h]
  · left
    have hb : (o.filled + e.size == o.quantity) = false := by
      simpa using h
    simp [hb]

/-- Explicit form of `_onUserTrade` when the match hits a registered order
and the balance refresh succeeds: balance cached, execution info appended,
the order unregistered exactly when it became inactive, and one event
emitted whose registration snapshot equals the order's activity. -/
theorem onUserTrade_found_eq (b : BrokerState) (mt : Match) (gw : Gateway)
    (c2 c1 : ℚ) (oid : ℕ) (order : Order)
    (hbal : gw.balancesResp = .ok (c2, c1))
    (hinv : mt.involves (b.activeOrders.map Prod.fst) = some oid)
    (hord : lookupOrder b.activeOrders oid = some order)
    (hid : order.id = some oid) :
    onUserTrade b mt gw =
      if (order.addExecutionInfo (tradeExecInfo order mt)).isActive then
        ⟨⟨false, round2 c2, c1,
          updateOrder b.activeOrders oid
            (order.addExecutionInfo (tradeExecInfo order mt))⟩,
         [⟨.PARTIALLY_FILLED, some (tradeExecInfo order mt),
           order.addExecutionInfo (tradeExecInfo order mt), true⟩],
         [.balances], true, none⟩
      else
        ⟨⟨false, round2 c2, c1,
          eraseOrder (updateOrder b.activeOrders oid
            (order.addExecutionInfo (tradeExecInfo order mt))) oid⟩,
         [⟨.FILLED, some (tradeExecInfo order mt),
           order.addExecutionInfo (tradeExecInfo order mt), false⟩],
         [.balances], true, none⟩ := by
  have hsome : (lookupOrder b.activeOrders oid).isSome := by
    rw [hord]; rfl
  have hupd := lookupOrder_update_self b.activeOrders oid
    (order.addExecutionInfo (tradeExecInfo order mt)) hsome
  rcases addExecutionInfo_case order (tradeExecInfo order mt) with
    ⟨ha, hf, _⟩ | ⟨ha, hf, _⟩
  · rw [if_pos ha]
    simp only [onUserTrade, hinv, hord, refreshAccountBalance, hbal, ha, hf,
      if_true, if_false, Bool.false_eq_true]
    simp [hupd]
  · rw [if_neg (by simp [ha])]
    have hunreg : unregisterOrder
        (updateOrder b.activeOrders oid
          (order.addExecutionInfo (tradeExecInfo order mt)))
        (order.addExecutionInfo (tradeExecInfo order mt)) =
        .ok (oid, eraseOrder (updateOrder b.activeOrders oid
          (order.addExecutionInfo (tradeExecInfo order mt))) oid) := by
      simp only [unregisterOrder, addExecutionInfo_id, hid, hupd]
    simp only [onUserTrade, hinv, hord, refreshAccountBalance, hbal, ha, hf,
      if_true, if_false, Bool.false_eq_true, hunreg]
    simp [lookupOrder_erase_self]

/-- Claim C4: `_onUserTrade` returns True iff the match references a
registered order; on a hit exactly one Execution Info is appended, one
event is emitted — FILLED iff the order is then fully filled, else
PARTIALLY_FILLED — carrying that info, and the order is unregistered iff it
became inactive; on a miss nothing changes. -/
theorem C4_onUserTrade_spec (b : BrokerState) (mt : Match) (gw : Gateway)
    (c2 c1 : ℚ) (hbal : gw.balancesResp = .ok (c2, c1))
    (hwf : WFRegistry b.activeOrders) :
    ((onUserTrade b mt gw).returned = true ↔
       (mt.involves (b.activeOrders.map Prod.fst)).isSome) ∧
    (mt.involves (b.activeOrders.map Prod.fst) = none →
       onUserTrade b mt gw = ⟨b, [], [], false, none⟩) ∧
    (∀ oid order, mt.involves (b.activeOrders.map Prod.fst) = some oid →
       lookupOrder b.activeOrders oid = some order →
       (onUserTrade b mt gw).error = none ∧
       (onUserTrade b mt gw).returned = true ∧
       (onUserTrade b mt gw).events =
         [⟨(if (order.addExecutionInfo (tradeExecInfo order mt)).isFilled
              then EventType.FILLED else EventType.PARTIALLY_FILLED),
           some (tradeExecInfo order mt),
           order.addExecutionInfo (tradeExecInfo order mt),
           (order.addExecutionInfo (tradeExecInfo order mt)).isActive⟩] ∧
       (order.addExecutionInfo (tradeExecInfo order mt)).execInfo =
         order.execInfo ++ [tradeExecInfo order mt] ∧
       (lookupOrder (onUserTrade b mt gw).broker.activeOrders oid = none ↔
          (order.addExecutionInfo (tradeExecInfo order mt)).isActive =
            false)) := by
  have hmain : ∀ oid order,
      mt.involves (b.activeOrders.map Prod.fst) = some oid →
      lookupOrder b.activeOrders oid = some order →
      (onUserTrade b mt gw).error = none ∧
      (onUserTrade b mt gw).returned = true ∧
      (onUserTrade b mt gw).events =
        [⟨(if (order.addExecutionInfo (tradeExecInfo order mt)).isFilled
             then EventType.FILLED else EventType.PARTIALLY_FILLED),
          some (tradeExecInfo order mt),
          order.addExecutionInfo (tradeExecInfo order mt),
          (order.addExecutionInfo (tradeExecInfo order mt)).isActive⟩] ∧
      (order.addExecutionInfo (tradeExecInfo order mt)).execInfo =
        order.execInfo ++ [tradeExecInfo order mt] ∧
      (lookupOrder (onUserTrade b mt gw).broker.activeOrders oid = none ↔
         (order.addExecutionInfo (tradeExecInfo order mt)).isActive =
           false) := by
    intro oid order hinv hord
    have hid : order.id = some oid :=
      lookupOrder_id_of_wf b.activeOrders oid order hwf hord
    have heq := onUserTrade_found_eq b mt gw c2 c1 oid order hbal hinv hord hid
    have hupd := lookupOrder_update_self b.activeOrders oid
      (order.addExecutionInfo (tradeExecInfo order mt)) (by rw [hord]; rfl)
    rcases addExecutionInfo_case order (tradeExecInfo order mt) with
      ⟨ha, hf, _⟩ | ⟨ha, hf, _⟩
    · rw [if_pos ha] at heq
      rw [heq]
      refine ⟨rfl, rfl, by simp [ha, hf], rfl, ?_⟩
      simp [hupd, ha]
    · rw [if_neg (by simp [ha])] at heq
      rw [heq]
      refine ⟨rfl, rfl, by simp [ha, hf], rfl, ?_⟩
      simp [lookupOrder_erase_self, ha]
  refine ⟨?_, ?_, hmain⟩
  · constructor
    · intro hret
      cases hinv : mt.involves (b.activeOrders.map Prod.fst) with
      | none => rw [onUserTrade, hinv] at hret; exact absurd hret (by simp)
      | some oid => rfl
    · intro hsome
      cases hinv : mt.involves (b.activeOrders.map Prod.fst) with
      | none => rw [hinv] at hsome; exact absurd hsome (by simp)
      | some oid =>
        have hmem := involves_mem mt _ oid hinv
        have hl := lookupOrder_isSome_of_mem_keys b.activeOrders oid hmem
        cases hord : lookupOrder b.activeOrders oid with
        | none => rw [hord] at hl; exact absurd hl (by simp)
        | some order => exact (hmain oid order hinv hord).2.1
  · intro hinv
    rw [onUserTrade, hinv]

/-- Witness for C4: the match `mtHit` (0.4 @ 100 against order 7) returns
True, emits one PARTIALLY_FILLED event carrying the new execution info and
keeps the order registered; the unrelated `mtMiss` returns False and
changes nothing. -/
theorem C4_witness :
    (onUserTrade bAcc mtHit gwOk).returned = true ∧
    (onUserTrade bAcc mtHit gwOk).events =
      [⟨EventType.PARTIALLY_FILLED, some (tradeExecInfo ordAcc mtHit),
        ordAcc.addExecutionInfo (tradeExecInfo ordAcc mtHit), true⟩] ∧
    onUserTrade bAcc mtMiss gwOk = ⟨bAcc, [], [], false, none⟩ := by
  have h := C4_onUserTrade_spec bAcc mtHit gwOk 10 3 rfl
    (by intro p hp; simp [bAcc] at hp; rw [hp]; rfl)
  have h7 := h.2.2 7 ordAcc rfl rfl
  have hmiss := (C4_onUserTrade_spec bAcc mtMiss gwOk 10 3 rfl
    (by intro p hp; simp [bAcc] at hp; rw [hp]; rfl)).2.1 rfl
  have hc : (ordAcc.filled + (tradeExecInfo ordAcc mtHit).size ==
      ordAcc.quantity) = false := by
    show ((0 : ℚ) + (2 : ℚ)/5 == 1) = false
    norm_num
  have hst : (ordAcc.addExecutionInfo (tradeExecInfo ordAcc mtHit)).state =
      OrderState.PartiallyFilled := by
    simp [Order.addExecutionInfo, hc]
  have hIsF : (ordAcc.addExecutionInfo (tradeExecInfo ordAcc mtHit)).isFilled
      = false := by
    simp [Order.isFilled, hst]
  have hIsA : (ordAcc.addExecutionInfo (tradeExecInfo ordAcc mtHit)).isActive
      = true := by
    simp [Order.isActive, hst]
  refine ⟨h7.2.1, ?_, hmiss⟩
  rw [h7.2.2.1, hIsF, hIsA]
  simp

/-- Claim C8: Every event `_onUserTrade` emits for a registered order matched
by a trade carries an execution info whose fee is zero for a limit order
and `0.0025 * match.price * match.size` otherwise. -/
theorem C8_fee_schedule (b : BrokerState) (mt : Match) (gw : Gateway)
    (c2 c1 : ℚ) (oid : ℕ) (order : Order)
    (hbal : gw.balancesResp = .ok (c2, c1))
    (hwf : WFRegistry b.activeOrders)
    (hinv : mt.involves (b.activeOrders.map Prod.fst) = some oid)
    (hord : lookupOrder b.activeOrders oid = some order) :
    (onUserTrade b mt gw).events.length = 1 ∧
    ∀ e ∈ (onUserTrade b mt gw).events, ∃ ei, e.oei = some ei ∧
      ei.fee = (if order.otype = OrderType.Limit then 0
                else 25 / 10000 * mt.price * mt.size) := by
  have hid : order.id = some oid :=
    lookupOrder_id_of_wf b.activeOrders oid order hwf hord
  have heq := onUserTrade_found_eq b mt gw c2 c1 oid order hbal hinv hord hid
  have hfee : (tradeExecInfo order mt).fee =
      (if order.otype = OrderType.Limit then 0
       else 25 / 10000 * mt.price * mt.size) := by
    simp only [tradeExecInfo, feesOf]
    by_cases h : order.otype = OrderType.Limit
    · simp [h]
    · have hb : (order.otype == OrderType.Limit) = false := by simpa using h
      simp [h, hb]
  rw [heq]
  by_cases ha :
      (order.addExecutionInfo (tradeExecInfo order mt)).isActive = true
  · rw [if_pos ha]
    refine ⟨rfl, ?_⟩
    intro e he
    simp only [List.mem_singleton] at he
    subst he
    exact ⟨tradeExecInfo order mt, rfl, hfee⟩
  · rw [if_neg ha]
    refine ⟨rfl, ?_⟩
    intro e he
    simp only [List.mem_singleton] at he
    subst he
    exact ⟨tradeExecInfo order mt, rfl, hfee⟩

/-- Witness for C8: the limit order 7 matched by `mtHit` yields one event
whose execution info carries a zero fee. -/
theorem C8_witness :
    (onUserTrade bAcc mtHit gwOk).events.length = 1 ∧
    ∀ e ∈ (onUserTrade bAcc mtHit gwOk).events, ∃ ei, e.oei = some ei ∧
      ei.fee = 0 := by
  have h := C8_fee_schedule bAcc mtHit gwOk 10 3 7 ordAcc rfl
    (by intro p hp; simp [bAcc] at hp; rw [hp]; rfl) rfl rfl
  refine ⟨h.1, ?_⟩
  intro e he
  obtain ⟨ei, hei, hfee⟩ := h.2 e he
  refine ⟨ei, hei, ?_⟩
  simp only [ordAcc] at hfee
  simpa using hfee

/-! ### Claim C1: `onChangeEvent` double emission -/

/-- A registered limit BUY order, quantity 2 at price 100, Accepted. -/
def ordAcc2 : Order :=
  ⟨some 7, .Limit, .Buy, 2, 100, .Accepted, 0, [], false, true, some 0⟩

/-- A broker tracking `ordAcc2` under venue id 7. -/
def bAcc2 : BrokerState := ⟨false, 50, 2, [(7, ordAcc2)]⟩

/-- The order-status push that triggers the double emission: a `done`
message with reason `filled` whose remaining size 1 is nonzero, so
`__parse` maps it to (Canceled, CANCELED) while `oei` still carries a
partial fill. -/
def cPartialCancel : ChangeMsg :=
  ⟨7, "done", some "filled", some "1", some "100", 5⟩

/-- The execution info `OrderStateChange.oei` builds for
`cPartialCancel` against `ordAcc2`: fill size = unfilled 2 minus
remaining 1. -/
def oeiBadL : OrderExecutionInfo := ⟨some 100, (2 : ℚ) - 0 - 1, 0, 5⟩

/-- Claim C1, code bug: Falsified on the code: for the registered order 7 (quantity 2,
none filled, Accepted) and the single state transition induced by the
`done`/`filled` change with remaining size 1, `onChangeEvent` emits TWO
CANCELED order events — one before the state switch carrying the execution
info and one after it — instead of exactly one. -/
theorem C1_double_emission :
    ((onChangeEvent bAcc2 cPartialCancel gwOk).events.map
        (fun e => e.eventType)) =
      [EventType.CANCELED, EventType.CANCELED] ∧
    (onChangeEvent bAcc2 cPartialCancel gwOk).events.length = 2 ∧
    (onChangeEvent bAcc2 cPartialCancel gwOk).error = none := by
  have hcond : (ordAcc2.filled + oeiBadL.size == ordAcc2.quantity) = false := by
    show ((0 : ℚ) + ((2 : ℚ) - 0 - 1) == (2 : ℚ)) = false
    norm_num
  have hst : (ordAcc2.addExecutionInfo oeiBadL).state =
      OrderState.PartiallyFilled := by
    simp [Order.addExecutionInfo, hcond]
  have hid1 : (ordAcc2.addExecutionInfo oeiBadL).id = some 7 := rfl
  have hid2 : ((ordAcc2.addExecutionInfo oeiBadL).switchState
      OrderState.Canceled).id = some 7 := rfl
  have hact : ((ordAcc2.addExecutionInfo oeiBadL).switchState
      OrderState.Canceled).isActive = false := rfl
  have hne : (OrderState.Canceled != OrderState.PartiallyFilled) = true := rfl
  have hp : parseChange cPartialCancel =
      .ok (some (OrderState.Canceled, EventType.CANCELED),
        some (100 : ℚ)) := rfl
  have hord_id : cPartialCancel.order_id = 7 := rfl
  have hl : lookupOrder bAcc2.activeOrders 7 = some ordAcc2 := rfl
  have hmap : bAcc2.activeOrders = [(7, ordAcc2)] := rfl
  have hoei : changeOei cPartialCancel (some (100 : ℚ)) ordAcc2 =
      .ok (some oeiBadL) := rfl
  have hgw : gwOk.balancesResp = .ok (10, 3) := rfl
  have heq : onChangeEvent bAcc2 cPartialCancel gwOk =
      ⟨⟨false, round2 10, 3, []⟩,
       [⟨.CANCELED, some oeiBadL, ordAcc2.addExecutionInfo oeiBadL, true⟩,
        ⟨.CANCELED, none,
         (ordAcc2.addExecutionInfo oeiBadL).switchState OrderState.Canceled,
         true⟩],
       [.balances], none⟩ := by
    simp [onChangeEvent, hp, hord_id, hl, hmap, hoei, hst, hne, hid1, hid2,
      hact, hgw, updateOrder, eraseOrder, lookupOrder, unregisterOrder,
      refreshAccountBalance]
  rw [heq]
  exact ⟨rfl, rfl, rfl⟩

/-! ### Claim C10: `toBookMessages` -/

/-- Every non-empty success of the side/price/size tail is a single delta
tagged with `int(sequence)`. -/
theorem toBookMessagesTail_single (m : BookMsg) (sym : String)
    (ds : List BookDelta) (h : toBookMessagesTail m sym = .ok ds)
    (hne : ds ≠ []) :
    ∃ d, ds = [d] ∧ m.sequence.bind parseIntStr = some d.rts := by
  unfold toBookMessagesTail at h
  split at h
  · exact absurd h (by simp)
  · split at h
    · exact absurd h (by simp)
    · split at h
      · simp only [Except.ok.injEq] at h
        exact absurd h.symm hne
      · split at h
        · simp only [Except.ok.injEq] at h
          exact absurd h.symm hne
        · split at h
          · exact absurd h (by simp)
          · split at h
            · exact absurd h (by simp)
            · split at h
              · exact absurd h (by simp)
              · split at h
                · exact absurd h (by simp)
                · simp only [Except.ok.injEq] at h
                  refine ⟨_, h.symm, ?_⟩
                  simp_all

/-- The counterexample to C10 as stated: a message lacking a `price` field
but with an unrecognized side. The claim requires an empty delta list; the
code checks the side first and raises ValueError. -/
def mSideNoPrice : BookMsg :=
  ⟨"open", none, some "weird", none, none, none, none, none, none⟩

/-- Claim C10, counterexample: On the priceless message with unknown side
`"weird"`, `toBookMessages` raises ValueError instead of returning the
empty delta list the claim promises for every message lacking a price. -/
theorem C10_counterexample :
    toBookMessages mSideNoPrice "BTCUSD" =
      .error (.valueError "Unknown side") := rfl

/-- Claim C10, amended: `toBookMessages` returns an empty delta list for
every `received` message, every `done` market-order message, every message
with a recognized side that lacks a `price` field, and every `change`
message with price `'null'`; it raises ValueError for an unknown side
(checked before the price field, even when the price is absent) and for an
unknown message type when a price field is present; and every non-empty
result is a single delta tagged with the message's integer sequence
field. -/
theorem C10_toBookMessages_amended (m : BookMsg) (sym : String) :
    (m.mtype = "received" → toBookMessages m sym = .ok []) ∧
    (m.mtype = "done" → m.order_type = some "market" →
       toBookMessages m sym = .ok []) ∧
    (∀ s, m.mtype ≠ "received" →
       (m.mtype = "done" → ∃ ot, m.order_type = some ot ∧ ot ≠ "market") →
       m.side = some s → s ≠ "buy" → s ≠ "sell" →
       toBookMessages m sym = .error (.valueError "Unknown side")) ∧
    ((m.side = some "buy" ∨ m.side = some "sell") → m.mtype ≠ "received" →
       (m.mtype = "done" → ∃ ot, m.order_type = some ot ∧ ot ≠ "market") →
       m.price = none →
       toBookMessages m sym = .ok []) ∧
    (m.mtype = "change" → (m.side = some "buy" ∨ m.side = some "sell") →
       m.price = some "null" →
       toBookMessages m sym = .ok []) ∧
    (m.mtype ≠ "received" → m.mtype ≠ "done" → m.mtype ≠ "open" →
       m.mtype ≠ "match" → m.mtype ≠ "change" →
       (m.side = some "buy" ∨ m.side = some "sell") →
       ∀ p, m.price = some p →
       toBookMessages m sym =
         .error (.valueError "Unknown binance message")) ∧
    (∀ ds, toBookMessages m sym = .ok ds → ds ≠ [] →
       ∃ d, ds = [d] ∧ m.sequence.bind parseIntStr = some d.rts) := by
  refine ⟨?_, ?_, ?_, ?_, ?_, ?_, ?_⟩
  · intro h
    simp [toBookMessages, h]
  · intro h hot
    simp [toBookMessages, h, hot]
  · intro s hnr hdone hside hb hs
    by_cases hd : m.mtype = "done"
    · obtain ⟨ot, hot, hotm⟩ := hdone hd
      simp [toBookMessages, toBookMessagesTail, hd, hot, hotm, hside, hb, hs]
    · simp [toBookMessages, toBookMessagesTail, hnr, hd, hside, hb, hs]
  · intro hside hnr hdone hprice
    by_cases hd : m.mtype = "done"
    · obtain ⟨ot, hot, hotm⟩ := hdone hd
      rcases hside with h | h <;>
        simp [toBookMessages, toBookMessagesTail, hd, hot, hotm, h, hprice]
    · rcases hside with h | h <;>
        simp [toBookMessages, toBookMessagesTail, hnr, hd, h, hprice]
  · intro hc hside hprice
    rcases hside with h | h <;>
      simp [toBookMessages, toBookMessagesTail, hc, h, hprice]
  · intro h1 h2 h3 h4 h5 hside p hp
    rcases hside with h | h <;>
      simp [toBookMessages, toBookMessagesTail, kindSize, h1, h2, h3, h4, h5,
        h, hp]
  · intro ds h hne
    rw [toBookMessages] at h
    by_cases h1 : (m.mtype == "received") = true
    · rw [if_pos h1] at h
      simp only [Except.ok.injEq] at h
      exact absurd h.symm hne
    · rw [if_neg h1] at h
      by_cases h2 : (m.mtype == "done") = true
      · rw [if_pos h2] at h
        split at h
        · exact absurd h (by simp)
        · rename_i ot hot
          by_cases h3 : (ot == "market") = true
          · rw [if_pos h3] at h
            simp only [Except.ok.injEq] at h
            exact absurd h.symm hne
          · rw [if_neg h3] at h
            exact toBookMessagesTail_single m sym ds h hne
      · rw [if_neg h2] at h
        exact toBookMessagesTail_single m sym ds h hne

/-- The messages exercising each clause of the amended C10. -/
def mRecv : BookMsg :=
  ⟨"received", none, none, none, none, none, none, none, none⟩

/-- A `done` message for a market order. -/
def mDoneMkt : BookMsg :=
  ⟨"done", some "market", some "buy", some "100", some "1", none, none, none,
   some "5"⟩

/-- An `open` message with a recognized side but no price. -/
def mNoPrice : BookMsg :=
  ⟨"open", none, some "buy", none, none, none, none, none, none⟩

/-- A `change` message whose price is the string `null`. -/
def mChangeNull : BookMsg :=
  ⟨"change", none, some "sell", some "null", none, none, some "3", some "2",
   some "5"⟩

/-- A message of unknown type carrying a price. -/
def mUnkType : BookMsg :=
  ⟨"zzz", none, some "buy", some "1", none, none, none, none, none⟩

/-- A `match` message: 2 @ 100 on the bid side, sequence 42. -/
def mMatchMsg : BookMsg :=
  ⟨"match", none, some "buy", some "100", none, some "2", none, none,
   some "42"⟩

/-- Witness for the amended C10, one concrete message per clause. -/
theorem C10_witness :
    toBookMessages mRecv "BTCUSD" = .ok [] ∧
    toBookMessages mDoneMkt "BTCUSD" = .ok [] ∧
    toBookMessages mSideNoPrice "BTCUSD" =
      .error (.valueError "Unknown side") ∧
    toBookMessages mNoPrice "BTCUSD" = .ok [] ∧
    toBookMessages mChangeNull "BTCUSD" = .ok [] ∧
    toBookMessages mUnkType "BTCUSD" =
      .error (.valueError "Unknown binance message") ∧
    ∃ d, ([⟨DeltaKind.Decrease, 42, "binance", "BTCUSD", 100, 2, Side.Buy⟩] :
        List BookDelta) = [d] ∧
      mMatchMsg.sequence.bind parseIntStr = some d.rts := by
  refine ⟨(C10_toBookMessages_amended mRecv "BTCUSD").1 rfl,
    (C10_toBookMessages_amended mDoneMkt "BTCUSD").2.1 rfl rfl,
    (C10_toBookMessages_amended mSideNoPrice "BTCUSD").2.2.1 "weird"
      (by simp [mSideNoPrice]) (by simp [mSideNoPrice]) rfl
      (by simp) (by simp),
    (C10_toBookMessages_amended mNoPrice "BTCUSD").2.2.2.1 (Or.inl rfl)
      (by simp [mNoPrice]) (by simp [mNoPrice]) rfl,
    (C10_toBookMessages_amended mChangeNull "BTCUSD").2.2.2.2.1 rfl
      (Or.inr rfl) rfl,
    (C10_toBookMessages_amended mUnkType "BTCUSD").2.2.2.2.2.1
      (by simp [mUnkType]) (by simp [mUnkType]) (by simp [mUnkType])
      (by simp [mUnkType]) (by simp [mUnkType]) (Or.inl rfl) "1" rfl,
    (C10_toBookMessages_amended mMatchMsg "BTCUSD").2.2.2.2.2.2
      [⟨DeltaKind.Decrease, 42, "binance", "BTCUSD", 100, 2, Side.Buy⟩]
      rfl (by simp)⟩

end Binance
